import Mathlib

/-!
Verification of the PocketLLM backend core: the cache manager
(`backend/services/cache_service.py`), the session store
(`backend/services/session_service.py`), the inference orchestrator
(`backend/services/llm_service.py`), the streaming chat endpoint
(`backend/routers/chat_router.py`), and the prompt-building utilities
(`backend/utils/prompt_builder.py`).

The Python source is shallowly embedded: each service's mutable object
state becomes a Lean structure threaded explicitly through the
operations, `datetime.utcnow()` becomes an explicit simulated clock
argument of type `Nat`, and the text-generation backend (an external
collaborator) becomes an abstract outcome value.  The remote (Redis)
cache backend is an external collaborator that the code only uses when
a server is reachable; the embedding models the in-process fallback
backend, which is the branch the code takes otherwise and the one the
spec's simulated-clock properties address.
-/

namespace PocketLLM

/-! ## Python string helpers

`str.split()` with no arguments splits on runs of whitespace and
discards empty fields.  The code only ever uses the *length* of the
resulting list, so we embed the word count directly: the number of
maximal runs of non-whitespace characters. -/

/-- Whitespace characters recognized by Python's `str.split()` (ASCII
subset; the Unicode-only space characters do not occur in any input
considered here). -/
def isPySpace (c : Char) : Bool :=
  c = ' ' || c = '\t' || c = '\n' || c = '\x0d' || c.val = 11 || c.val = 12

/-- Count the maximal runs of non-whitespace characters; the Boolean
records whether the scan is currently inside such a run. -/
def countWordsAux : Bool → List Char → Nat
  | _, [] => 0
  | inWord, c :: rest =>
    if isPySpace c then countWordsAux false rest
    else (if inWord then 0 else 1) + countWordsAux true rest

/-- Python's `len(text.split())` — the number of whitespace-delimited words. -/
def pyWordCount (s : String) : Nat := countWordsAux false s.toList

/-- Python's `str.split()` itself, producing the list of words (accumulator holds
the current word reversed); used to characterize `pyWordCount`
independently of its counter implementation. -/
def splitWordsAux : List Char → List Char → List (List Char)
  | acc, [] => if acc = [] then [] else [acc.reverse]
  | acc, c :: rest =>
    if isPySpace c then
      if acc = [] then splitWordsAux [] rest
      else acc.reverse :: splitWordsAux [] rest
    else splitWordsAux (c :: acc) rest

/-- Python `text.split()`. -/
def pySplit (s : String) : List String :=
  (splitWordsAux [] s.toList).map (fun w => String.mk w)

/-! ## `backend/utils/prompt_builder.py` -/

/-- A CJK ideograph: a code point in U+4E00–U+9FFF, exactly the
comparison `'一' <= c <= '鿿'` in the source. -/
def isCJK (c : Char) : Bool := 0x4E00 ≤ c.val && c.val ≤ 0x9FFF

/-- The source's `estimate_tokens(text)`: 0 for `None` or empty text (`if not text`),
otherwise twice the number of CJK ideographs plus the number of
whitespace-delimited words of the whole text. -/
def estimate_tokens (text : Option String) : Nat :=
  match text with
  | none => 0
  | some t =>
    if t = "" then 0
    else (t.toList.filter isCJK).length * 2 + pyWordCount t

/-- The token-estimate formula as the spec words it: CJK ideographs at
weight 2, and the *remaining* whitespace-delimited words — the words of
the text with the CJK ideographs taken out — at weight 1.  Stated only
for comparison with `estimate_tokens`, which is the code's formula. -/
def estimate_tokens_specFormula (text : Option String) : Nat :=
  match text with
  | none => 0
  | some t =>
    if t = "" then 0
    else
      (t.toList.filter isCJK).length * 2 +
        pyWordCount (String.mk (t.toList.filter (fun c => !isCJK c)))

/-- A chat message as the services see it (`schemas/chat.py`); the
identifiers and timestamp are opaque to every property proved here and
are elided. -/
structure ChatMessage where
  role : String
  content : String
  tokens_used : Option Nat := none
deriving Repr, DecidableEq

/-- Sum of the per-message token estimates of a history. -/
def sumEstimate (messages : List ChatMessage) : Nat :=
  (messages.map (fun m => estimate_tokens (some m.content))).sum

/-- The loop of `trim_conversation`, running over the *reversed*
history: take messages while the running total stays within the budget,
stop at the first message that would push it over (`break`). -/
def trimRev (max_tokens : Nat) (total : Nat) : List ChatMessage → List ChatMessage
  | [] => []
  | m :: rest =>
    let tokens := estimate_tokens (some m.content)
    if max_tokens < total + tokens then []
    else m :: trimRev max_tokens (total + tokens) rest

/-- The source's `trim_conversation(messages, max_tokens)`: walk the history from
newest to oldest accumulating token estimates, keep each message whose
addition stays within the budget, stop at the first overflow; the kept
messages are returned in their original order. -/
def trim_conversation (messages : List ChatMessage) (max_tokens : Nat := 1024) :
    List ChatMessage :=
  (trimRev max_tokens 0 messages.reverse).reverse

/-! ## `backend/services/cache_service.py` — `CacheManager`

The in-process fallback backend: `memory_cache` is a Python dict
mapping a derived key to a `(value, expiry)` pair, embedded as an
association list whose update preserves position (dict assignment).
`datetime.utcnow()` is the explicit simulated-clock argument `now`. -/

/-- One entry of `memory_cache`: `key -> (value, expiry)`. -/
structure CacheEntry where
  key : String
  value : String
  expiry : Nat
deriving Repr, DecidableEq

/-- Dict lookup: the pair stored under `k`, if any. -/
def dictGet : List CacheEntry → String → Option (String × Nat)
  | [], _ => none
  | e :: rest, k => if e.key = k then some (e.value, e.expiry) else dictGet rest k

/-- Dict assignment `m[k] = (v, exp)`: replace in place if the key is
present, append otherwise. -/
def dictSet : List CacheEntry → String → String → Nat → List CacheEntry
  | [], k, v, exp => [⟨k, v, exp⟩]
  | e :: rest, k, v, exp =>
    if e.key = k then ⟨k, v, exp⟩ :: rest else e :: dictSet rest k v exp

/-- The JSON rendering of an optional numeric parameter: `null` when the
caller passed `None`, the number otherwise. -/
def jsonOptInt : Option Int → String
  | none => "null"
  | some n => toString n

/-- The method `CacheManager._generate_cache_key(prompt, **kwargs)`: a key derived
deterministically from the prompt and the `temperature` / `max_tokens`
parameters, carrying the `llm:` namespace prefix.  The source
canonicalizes the three fields as sorted-key JSON and takes its SHA-256
digest; the digest step is abstracted here as an injective canonical
encoding of the same three fields (the fixed-format numeric fields come
first, so the encoding is unambiguous).  `infer` always passes both
keyword arguments, so the `settings` defaults for absent keywords never
arise in the paths modelled here. -/
def _generate_cache_key (prompt : String) (temperature max_tokens : Option Int) :
    String :=
  "llm:" ++ jsonOptInt max_tokens ++ "|" ++ jsonOptInt temperature ++ "|" ++ prompt

/-- The mutable state of a `CacheManager` running on the in-memory
fallback backend (`use_redis = False`): the remote backend is an
external collaborator and is absent.  `ttl` is
`settings.CACHE_TTL_SECONDS`, `enabled` is `settings.ENABLE_CACHE`. -/
structure CacheManager where
  enabled : Bool
  ttl : Nat
  memory_cache : List CacheEntry
  hits : Nat
  misses : Nat
deriving Repr, DecidableEq

/-- The method `_clean_expired_entries`: drop every entry whose expiry is strictly
before `now`. -/
def CacheManager.clean_expired_entries (c : CacheManager) (now : Nat) : CacheManager :=
  { c with memory_cache := c.memory_cache.filter (fun e => decide (now ≤ e.expiry)) }

/-- The method `CacheManager.get(prompt, **kwargs)` on the in-memory backend:
`None` when disabled; otherwise clean expired entries, then a hit (value
returned, `hits` incremented) when the key is present with expiry
strictly after `now`, else a miss (`misses` incremented; an entry whose
expiry equals `now` survives the cleanup but fails the `expiry > now`
test and is deleted). -/
def CacheManager.get (c : CacheManager) (now : Nat) (prompt : String)
    (temperature max_tokens : Option Int) : Option String × CacheManager :=
  if !c.enabled then (none, c)
  else
    let cache_key := _generate_cache_key prompt temperature max_tokens
    let cc := c.clean_expired_entries now
    match dictGet cc.memory_cache cache_key with
    | some (value, expiry) =>
      if now < expiry then (some value, { cc with hits := cc.hits + 1 })
      else
        (none, { cc with
                 memory_cache := cc.memory_cache.filter (fun e => !(e.key = cache_key)),
                 misses := cc.misses + 1 })
    | none => (none, { cc with misses := cc.misses + 1 })

/-- The method `CacheManager.set(prompt, response, **kwargs)` on the in-memory
backend: `False` when disabled, otherwise store the response under the
derived key with expiry `now + ttl` and return `True`. -/
def CacheManager.set (c : CacheManager) (now : Nat) (prompt : String)
    (response : String) (temperature max_tokens : Option Int) :
    Bool × CacheManager :=
  if !c.enabled then (false, c)
  else
    let cache_key := _generate_cache_key prompt temperature max_tokens
    (true, { c with
             memory_cache := dictSet c.memory_cache cache_key response (now + c.ttl) })

/-- The method `CacheManager.flush()` on the in-memory backend: `0` and no change
when disabled, otherwise clear the whole store and return how many
entries were removed.  Hit/miss counters are untouched. -/
def CacheManager.flush (c : CacheManager) : Nat × CacheManager :=
  if !c.enabled then (0, c)
  else (c.memory_cache.length, { c with memory_cache := [] })

/-- Round-half-to-even on rationals, Python's `round` ties rule. -/
def roundHalfEven (q : ℚ) : ℤ :=
  let f := ⌊q⌋
  let frac := q - f
  if frac < 1 / 2 then f
  else if 1 / 2 < frac then f + 1
  else if f % 2 = 0 then f else f + 1

/-- Python's `round(x, 2)`, idealized over exact rationals. -/
def pyRound2 (q : ℚ) : ℚ := (roundHalfEven (q * 100) : ℚ) / 100

/-- The dictionary returned by `CacheManager.get_stats()` in the
in-memory branch. -/
structure CacheStats where
  enabled : Bool
  backend : String
  hits : Nat
  misses : Nat
  total_requests : Nat
  hit_rate : ℚ
  entries : Nat
deriving Repr, DecidableEq

/-- The method `CacheManager.get_stats()` on the in-memory backend: the hit rate is
the *percentage* `hits / total * 100` (0 when no requests yet), rounded
to two decimals; the entry count is taken after cleaning expired
entries, which mutates the store. -/
def CacheManager.get_stats (c : CacheManager) (now : Nat) :
    CacheStats × CacheManager :=
  let total := c.hits + c.misses
  let hit_rate : ℚ := if 0 < total then (c.hits : ℚ) / (total : ℚ) * 100 else 0
  let cc := c.clean_expired_entries now
  (⟨cc.enabled, "in-memory", cc.hits, cc.misses, total, pyRound2 hit_rate,
    cc.memory_cache.length⟩, cc)

/-! ## `backend/services/session_service.py` — `SessionService`

The SQL layer (`database/`, not part of the analysed sources) is a
straightforward row store; it is embedded as a list of session rows,
each holding its ordered message list, with the service methods
translated from `session_service.py`.  The generated message ids and
timestamps are opaque to every property proved here and are elided. -/

/-- One session row: id, owner, and the ordered message list. -/
structure SessionRow where
  session_id : String
  user_id : String
  messages : List ChatMessage
deriving Repr, DecidableEq

/-- The two domain errors raised by the session service as
`ValueError`s: `"Session {id} not found"` and
`"User does not own this session"`. -/
inductive SessionError where
  | notFound (session_id : String)
  | ownershipViolation
deriving Repr, DecidableEq

/-- The lookup `db.query(Session).filter(session_id == sid).first()`. -/
def findSession : List SessionRow → String → Option SessionRow
  | [], _ => none
  | r :: rest, sid => if r.session_id = sid then some r else findSession rest sid

/-- Append a message to the row with the given id. -/
def appendToSession : List SessionRow → String → ChatMessage → List SessionRow
  | [], _, _ => []
  | r :: rest, sid, m =>
    if r.session_id = sid then { r with messages := r.messages ++ [m] } :: rest
    else r :: appendToSession rest sid m

/-- The method `SessionService.add_message`: raises `NotFound` when the session
does not exist, raises `OwnershipViolation` when the caller is not the
session's owner, otherwise appends the message. -/
def SessionService.add_message (db : List SessionRow)
    (session_id user_id role content : String) (tokens_used : Option Nat) :
    Except SessionError (List SessionRow) :=
  match findSession db session_id with
  | none => .error (.notFound session_id)
  | some session =>
    if session.user_id ≠ user_id then .error .ownershipViolation
    else .ok (appendToSession db session_id ⟨role, content, tokens_used⟩)

/-- The method `SessionService.delete_session`: returns `False` when the session
does not exist, raises `OwnershipViolation` when the caller is not the
owner, otherwise removes the session and returns `True`. -/
def SessionService.delete_session (db : List SessionRow)
    (session_id user_id : String) : Except SessionError (Bool × List SessionRow) :=
  match findSession db session_id with
  | none => .ok (false, db)
  | some session =>
    if session.user_id ≠ user_id then .error .ownershipViolation
    else .ok (true, db.filter (fun r => !(r.session_id = session_id)))

/-! ## `backend/services/llm_service.py` — engine and orchestrator

The text-generation backend is the external collaborator
`self.model(prompt, ...)`; one call to it either returns raw text or
raises.  That outcome is the abstract input `BackendResult`. -/

/-- The outcome of one call into the generation backend. -/
inductive BackendResult where
  | success (rawText : String)
  | failure (excMsg : String)
deriving Repr, DecidableEq

/-- Python `str.lstrip()` (whitespace default). -/
def pyLstrip (s : String) : String :=
  String.mk (s.toList.dropWhile (fun c => isPySpace c))

/-- Python `str.strip()` (whitespace default). -/
def pyStrip (s : String) : String :=
  String.mk (((s.toList.dropWhile (fun c => isPySpace c)).reverse.dropWhile
    (fun c => isPySpace c)).reverse)

/-- The dialogue markers `_clean_response` removes from the head of the
model output. -/
def dialogueMarkers : List String :=
  ["AI:", "AI :", "Assistant:", "Assistant :", "A:", "A :", "User:", "User :"]

/-- The loop of `_clean_response`: strip the first matching marker
(`startswith` test, then drop it and left-strip) and stop. -/
def cleanAux : List String → String → String
  | [], text => text
  | p :: ps, text =>
    if text.take p.length = p then pyLstrip (text.drop p.length)
    else cleanAux ps text

/-- The method `LLMEngine._clean_response`. -/
def _clean_response (text : String) : String := cleanAux dialogueMarkers text

/-- The method `LLMEngine.generate(prompt, ..., stream=False)` with the model
loaded: on success, the raw text stripped and cleaned of dialogue
markers; on an exception, the *textual error payload*
`"Error generating response: ..."` — still an ordinary string. -/
def LLMEngine.generate : BackendResult → String
  | .success raw => _clean_response (pyStrip raw)
  | .failure e => "Error generating response: " ++ e

/-- Python truthiness of `Optional[str]`: `None` and `""` are falsy. -/
def optStrTruthy : Option String → Bool
  | none => false
  | some s => !(s = "")

/-- The method `ModelInferenceService.infer(prompt, max_tokens, temperature,
use_cache)`: consult the cache when `use_cache` and return a *truthy*
cached value as a hit; otherwise generate (the result is always a
string in the non-stream path, so the `isinstance(response, str)` guard
holds) and, when `use_cache`, store that string — whatever it is —
before returning it with `cached = False`. -/
def ModelInferenceService.infer (c : CacheManager) (now : Nat) (prompt : String)
    (max_tokens temperature : Option Int) (use_cache : Bool)
    (backend : BackendResult) : (String × Bool) × CacheManager :=
  let got := if use_cache then c.get now prompt temperature max_tokens else (none, c)
  if optStrTruthy got.1 then ((got.1.getD "", true), got.2)
  else
    let response := LLMEngine.generate backend
    let c2 :=
      if use_cache then (got.2.set now prompt response temperature max_tokens).2
      else got.2
    ((response, false), c2)

/-! ## `backend/routers/chat_router.py` — the streaming endpoint

`generate_stream` is the async generator inside `send_message_stream`.
Its SSE records (`data: {...}\n\n`) are abstracted as typed events; the
token stream returned by `stream_infer` — which calls the engine
directly — is abstracted as a `StreamOutcome`: the fragments the
generator yields, and whether iteration completes or raises.  The
handler closes over the process-wide cache manager and session service;
both states are threaded through explicitly so that what the handler
does (and does not do) to them is visible in the result. -/

/-- One server-sent event of the streaming protocol. -/
inductive StreamEvent where
  | start (session_id message_id : String)
  | token (content : String)
  | error (message : String)
  | done (tokens_used : Nat)
deriving Repr, DecidableEq

/-- What one iteration of the backend token stream does: yield some
fragments and finish, or yield some fragments and raise. -/
inductive StreamOutcome where
  | completes (fragments : List String)
  | fails (fragments : List String) (excMsg : String)
deriving Repr, DecidableEq

/-- The `generate_stream` async generator: emit `start`; yield a
`token` event per non-empty fragment while accumulating
`full_response`; on an exception emit `error` and stop; on completion
append the assistant message to the session and emit `done` with the
word-count token estimate.  If that append itself raises (session gone
or owned by someone else by append time), the exception propagates out
of the generator and the stream is cut short with no terminal event.
The cache manager `c` is returned untouched: the source never consults
or writes it on this path (`stream_infer` is documented "no caching for
streams"). -/
def generate_stream (session_id message_id user_id prompt : String)
    (max_tokens temperature : Option Int) (c : CacheManager)
    (db : List SessionRow) (out : StreamOutcome) :
    List StreamEvent × CacheManager × List SessionRow :=
  match out with
  | .fails fragments excMsg =>
    (StreamEvent.start session_id message_id
        :: (fragments.filter (fun t => !(t = ""))).map StreamEvent.token
      ++ [StreamEvent.error ("Error generating response: " ++ excMsg)], c, db)
  | .completes fragments =>
    let kept := fragments.filter (fun t => !(t = ""))
    let full_response := String.join kept
    let tokens_used := pyWordCount full_response
    match SessionService.add_message db session_id user_id "assistant"
        full_response (some tokens_used) with
    | .error _ =>
      (StreamEvent.start session_id message_id :: kept.map StreamEvent.token, c, db)
    | .ok db' =>
      (StreamEvent.start session_id message_id :: kept.map StreamEvent.token
        ++ [StreamEvent.done tokens_used], c, db')

/-- Select the `token` events of an event sequence. -/
def isTokenEvent : StreamEvent → Bool
  | .token _ => true
  | _ => false

/-- The fragments the backend stream yielded, completion or not. -/
def StreamOutcome.fragments : StreamOutcome → List String
  | .completes f => f
  | .fails f _ => f

/-! ## Lemmas about the in-memory dictionary -/

/-- A Python dict has no duplicate keys; states reachable from the
constructor satisfy this, and the theorems that need it take it as a
hypothesis. -/
def keysNodup (m : List CacheEntry) : Prop := (m.map CacheEntry.key).Nodup

instance (m : List CacheEntry) : Decidable (keysNodup m) := by
  unfold keysNodup; infer_instance

/-! ### Lemmas about `trim_conversation` -/

theorem trimRev_of_sum_le (b : Nat) :
    ∀ (l : List ChatMessage) (total : Nat), total + sumEstimate l ≤ b →
      trimRev b total l = l := by
  intro l
  induction l with
  | nil => intro total _; rfl
  | cons m rest ih =>
    intro total h
    have hsum : sumEstimate (m :: rest)
        = estimate_tokens (some m.content) + sumEstimate rest := by
      simp [sumEstimate]
    rw [hsum] at h
    have h1 : total + estimate_tokens (some m.content) + sumEstimate rest ≤ b := by
      omega
    have h2 : ¬ b < total + estimate_tokens (some m.content) := by omega
    simp only [trimRev, h2, if_false]
    rw [ih (total + estimate_tokens (some m.content)) h1]

theorem trimRev_extends (b : Nat) :
    ∀ (l : List ChatMessage) (total : Nat),
      ∃ suf, l = trimRev b total l ++ suf := by
  intro l
  induction l with
  | nil => intro total; exact ⟨[], rfl⟩
  | cons m rest ih =>
    intro total
    by_cases h : b < total + estimate_tokens (some m.content)
    · exact ⟨m :: rest, by simp [trimRev, h]⟩
    · obtain ⟨suf, hsuf⟩ := ih (total + estimate_tokens (some m.content))
      refine ⟨suf, ?_⟩
      simp only [trimRev, h, if_false]
      simpa using congrArg (m :: ·) hsuf

theorem trimRev_sum_le (b : Nat) :
    ∀ (l : List ChatMessage) (total : Nat), total ≤ b →
      total + sumEstimate (trimRev b total l) ≤ b := by
  intro l
  induction l with
  | nil => intro total h; simpa [trimRev, sumEstimate] using h
  | cons m rest ih =>
    intro total h
    by_cases hb : b < total + estimate_tokens (some m.content)
    · simpa [trimRev, hb, sumEstimate] using h
    · have := ih (total + estimate_tokens (some m.content)) (by omega)
      simp only [trimRev, hb, if_false]
      have hsum : sumEstimate (m :: trimRev b (total + estimate_tokens (some m.content)) rest)
          = estimate_tokens (some m.content)
            + sumEstimate (trimRev b (total + estimate_tokens (some m.content)) rest) := by
        simp [sumEstimate]
      omega

theorem trimRev_head (b : Nat) (m : ChatMessage) (rest : List ChatMessage)
    (h : estimate_tokens (some m.content) ≤ b) :
    ∃ tl, trimRev b 0 (m :: rest) = m :: tl := by
  have hb : ¬ b < estimate_tokens (some m.content) := by omega
  refine ⟨trimRev b (estimate_tokens (some m.content)) rest, ?_⟩
  simp [trimRev, hb]

theorem dictGet_dictSet (m : List CacheEntry) (k v : String) (e : Nat) :
    dictGet (dictSet m k v e) k = some (v, e) := by
  induction m with
  | nil => simp [dictSet, dictGet]
  | cons x rest ih =>
    by_cases h : x.key = k
    · simp [dictSet, h, dictGet]
    · simp [dictSet, h, dictGet, ih]

theorem dictGet_filter_of_get (m : List CacheEntry) (k v : String) (e : Nat)
    (p : CacheEntry → Bool) (h : dictGet m k = some (v, e))
    (hp : p ⟨k, v, e⟩ = true) :
    dictGet (m.filter p) k = some (v, e) := by
  induction m with
  | nil => simp [dictGet] at h
  | cons x rest ih =>
    obtain ⟨xk, xv, xe⟩ := x
    by_cases hx : xk = k
    · subst hx
      obtain ⟨rfl, rfl⟩ : xv = v ∧ xe = e := by simpa [dictGet] using h
      simp [List.filter_cons, hp, dictGet]
    · have h' : dictGet rest k = some (v, e) := by simpa [dictGet, hx] using h
      by_cases hpx : p ⟨xk, xv, xe⟩ = true
      · simp [List.filter_cons, hpx, dictGet, hx, ih h']
      · simp [List.filter_cons, hpx, ih h']

theorem dictGet_filter_none (m : List CacheEntry) (k : String)
    (p : CacheEntry → Bool) (h : ∀ x ∈ m, x.key = k → p x = false) :
    dictGet (m.filter p) k = none := by
  induction m with
  | nil => simp [dictGet]
  | cons x rest ih =>
    have hrest := ih (fun y hy hk => h y (List.mem_cons_of_mem _ hy) hk)
    by_cases hpx : p x = true
    · have hxk : ¬ x.key = k := by
        intro hk
        have := h x (List.mem_cons_self x rest) hk
        simp_all
      simp [List.filter_cons, hpx, dictGet, hxk, hrest]
    · simp [List.filter_cons, hpx, hrest]

theorem dictSet_key_unique (m : List CacheEntry) (k v : String) (e : Nat)
    (h : keysNodup m) :
    ∀ x ∈ dictSet m k v e, x.key = k → x = ⟨k, v, e⟩ := by
  induction m with
  | nil =>
    intro x hx _
    simpa [dictSet] using hx
  | cons y rest ih =>
    intro x hx hxk
    have hnodup : y.key ∉ rest.map CacheEntry.key ∧ keysNodup rest := by
      simpa [keysNodup, List.nodup_cons] using h
    by_cases hy : y.key = k
    · simp only [dictSet, hy, if_true] at hx
      rcases List.mem_cons.mp hx with rfl | hx
      · rfl
      · exact absurd (hy ▸ hxk ▸ List.mem_map_of_mem CacheEntry.key hx) hnodup.1
    · simp only [dictSet, hy, if_false] at hx
      rcases List.mem_cons.mp hx with rfl | hx
      · exact absurd hxk hy
      · exact ih hnodup.2 x hx hxk

theorem CacheManager.get_enabled (c : CacheManager) (now : Nat) (prompt : String)
    (temperature max_tokens : Option Int) :
    ((c.get now prompt temperature max_tokens).2).enabled = c.enabled := by
  unfold CacheManager.get
  split
  · rfl
  · dsimp only
    split
    · split <;> rfl
    · rfl

theorem CacheManager.get_ttl (c : CacheManager) (now : Nat) (prompt : String)
    (temperature max_tokens : Option Int) :
    ((c.get now prompt temperature max_tokens).2).ttl = c.ttl := by
  unfold CacheManager.get
  split
  · rfl
  · dsimp only
    split
    · split <;> rfl
    · rfl

/-! ## Claim C7 — TTL round-trip -/

/-- C7: for every key (derived from a prompt and its parameters), value
and TTL, `set` immediately followed by `get` before the TTL elapses
returns the value; once the clock has advanced past the expiry, `get`
returns absent and increments the `misses` counter by exactly one. -/
theorem cache_set_get_roundtrip (c : CacheManager) (prompt : String)
    (temperature max_tokens : Option Int) (v : String) (t tHit tMiss : Nat)
    (hen : c.enabled = true) (hnodup : keysNodup c.memory_cache)
    (hHit : tHit < t + c.ttl) (hMiss : t + c.ttl < tMiss) :
    (((c.set t prompt v temperature max_tokens).2).get tHit prompt
        temperature max_tokens).1 = some v ∧
    (((c.set t prompt v temperature max_tokens).2).get tMiss prompt
        temperature max_tokens).1 = none ∧
    ((((c.set t prompt v temperature max_tokens).2).get tMiss prompt
        temperature max_tokens).2).misses = c.misses + 1 := by
  have hset : (c.set t prompt v temperature max_tokens).2
      = { c with memory_cache :=
            (dictSet c.memory_cache (_generate_cache_key prompt temperature max_tokens)
              v (t + c.ttl)) } := by
    simp [CacheManager.set, hen]
  have hget1 : dictGet
      ((dictSet c.memory_cache (_generate_cache_key prompt temperature max_tokens)
          v (t + c.ttl)).filter (fun e => decide (tHit ≤ e.expiry)))
      (_generate_cache_key prompt temperature max_tokens) = some (v, t + c.ttl) := by
    refine dictGet_filter_of_get _ _ _ _ _ (dictGet_dictSet _ _ _ _) ?_
    simp only [decide_eq_true_eq]
    omega
  have hget2 : dictGet
      ((dictSet c.memory_cache (_generate_cache_key prompt temperature max_tokens)
          v (t + c.ttl)).filter (fun e => decide (tMiss ≤ e.expiry)))
      (_generate_cache_key prompt temperature max_tokens) = none := by
    apply dictGet_filter_none
    intro x hx hxk
    rw [dictSet_key_unique c.memory_cache _ v (t + c.ttl) hnodup x hx hxk]
    simp only [decide_eq_false_iff_not]
    omega
  refine ⟨?_, ?_, ?_⟩
  · rw [hset]
    simp [CacheManager.get, CacheManager.clean_expired_entries, hen, hget1, hHit]
  · rw [hset]
    simp [CacheManager.get, CacheManager.clean_expired_entries, hen, hget2]
  · rw [hset]
    simp [CacheManager.get, CacheManager.clean_expired_entries, hen, hget2]

/-- Witness for C7 at the spec's end-to-end scenario C: TTL of one
simulated second, value cached at time 0, read at time 0 (hit) and at
time 2 (expired: absent, one extra miss). -/
theorem cache_set_get_roundtrip_witness :
    (((⟨true, 1, [], 0, 0⟩ : CacheManager).set 0 "p" "hello" none none).2.get 0 "p"
        none none).1 = some "hello" ∧
    (((⟨true, 1, [], 0, 0⟩ : CacheManager).set 0 "p" "hello" none none).2.get 2 "p"
        none none).1 = none ∧
    ((((⟨true, 1, [], 0, 0⟩ : CacheManager).set 0 "p" "hello" none none).2.get 2 "p"
        none none).2).misses = 0 + 1 := by
  have h := cache_set_get_roundtrip ⟨true, 1, [], 0, 0⟩ "p" none none "hello" 0 0 2
    rfl (by decide) (by decide) (by decide)
  exact ⟨h.1, h.2.1, h.2.2⟩

/-! ## Claim C8 — flush clears entries, keeps counters -/

/-- C8: `flush()` removes every entry of the (in-memory) store — a
subsequent `get_stats` reports an entry count of 0 — while the hit and
miss counters are exactly what they were before the flush. -/
theorem cache_flush_preserves_counters (c : CacheManager) (now : Nat)
    (hen : c.enabled = true) :
    (c.flush).1 = c.memory_cache.length ∧
    ((c.flush).2).hits = c.hits ∧ ((c.flush).2).misses = c.misses ∧
    (((c.flush).2).get_stats now).1.entries = 0 ∧
    (((c.flush).2).get_stats now).1.hits = c.hits ∧
    (((c.flush).2).get_stats now).1.misses = c.misses := by
  simp [CacheManager.flush, CacheManager.get_stats,
    CacheManager.clean_expired_entries, hen]

/-- Witness for C8: a cache with one entry and counters 3/2; the flush
removes the entry and the subsequent stats call reports 0 entries with
the counters intact. -/
theorem cache_flush_preserves_counters_witness :
    ((⟨true, 60, [⟨"llm:x", "v", 100⟩], 3, 2⟩ : CacheManager).flush).1 = 1 ∧
    ((((⟨true, 60, [⟨"llm:x", "v", 100⟩], 3, 2⟩ : CacheManager).flush).2).get_stats
        5).1.entries = 0 ∧
    ((((⟨true, 60, [⟨"llm:x", "v", 100⟩], 3, 2⟩ : CacheManager).flush).2).get_stats
        5).1.hits = 3 ∧
    ((((⟨true, 60, [⟨"llm:x", "v", 100⟩], 3, 2⟩ : CacheManager).flush).2).get_stats
        5).1.misses = 2 := by
  have h := cache_flush_preserves_counters ⟨true, 60, [⟨"llm:x", "v", 100⟩], 3, 2⟩ 5 rfl
  exact ⟨h.1, h.2.2.2.1, h.2.2.2.2.1, h.2.2.2.2.2⟩

/-! ## Claim C5 — cache statistics -/

/-- C5 counterexample: with one hit and one miss the code reports
`hit_rate = 50` — the *percentage* `hits / total * 100` — while the
claim's formula `hits / (hits + misses)` gives `1 / 2`. -/
theorem cache_stats_hit_rate_counterexample :
    ((⟨true, 60, [], 1, 1⟩ : CacheManager).get_stats 0).1.hit_rate = 50 ∧
    (1 : ℚ) / ((1 : ℚ) + (1 : ℚ)) = 1 / 2 ∧ (50 : ℚ) ≠ 1 / 2 := by
  norm_num [CacheManager.get_stats, CacheManager.clean_expired_entries,
    pyRound2, roundHalfEven]

/-- C5 as amended: `get_stats` reports `hit_rate` equal to the
percentage `hits / (hits + misses) * 100` rounded to two decimals when
at least one request has been counted, and 0 when none has, alongside
the enabled flag, the backend in use, the hit and miss counters, and
the count of unexpired entries. -/
theorem cache_stats_amended (c : CacheManager) (now : Nat) :
    (0 < c.hits + c.misses →
      ((c.get_stats now).1).hit_rate
        = pyRound2 ((c.hits : ℚ) / ((c.hits : ℚ) + (c.misses : ℚ)) * 100)) ∧
    (c.hits + c.misses = 0 → ((c.get_stats now).1).hit_rate = 0) ∧
    ((c.get_stats now).1).enabled = c.enabled ∧
    ((c.get_stats now).1).backend = "in-memory" ∧
    ((c.get_stats now).1).hits = c.hits ∧
    ((c.get_stats now).1).misses = c.misses ∧
    ((c.get_stats now).1).entries
      = (c.memory_cache.filter (fun e => decide (now ≤ e.expiry))).length := by
  refine ⟨?_, ?_, ?_, ?_, ?_, ?_, ?_⟩
  · intro h
    simp only [CacheManager.get_stats, h, if_true]
    congr 1
    push_cast
    ring
  · intro h
    simp only [CacheManager.get_stats, h]
    norm_num [pyRound2, roundHalfEven]
  · simp [CacheManager.get_stats, CacheManager.clean_expired_entries]
  · simp [CacheManager.get_stats]
  · simp [CacheManager.get_stats, CacheManager.clean_expired_entries]
  · simp [CacheManager.get_stats, CacheManager.clean_expired_entries]
  · simp [CacheManager.get_stats, CacheManager.clean_expired_entries]

/-- Witness for C5: with 3 hits and 1 miss (4 requests counted) the
reported hit rate is the percentage 75. -/
theorem cache_stats_amended_witness :
    (0 : Nat) < 3 + 1 ∧
    ((⟨true, 60, [], 3, 1⟩ : CacheManager).get_stats 0).1.hit_rate = 75 := by
  have h := (cache_stats_amended ⟨true, 60, [], 3, 1⟩ 0).1 (by norm_num)
  refine ⟨by norm_num, ?_⟩
  rw [h]
  norm_num [pyRound2, roundHalfEven]

/-! ## Claim C2 — caching around the single-shot generation -/

/-- C2 counterexample: with caching enabled and an empty cache, a
generation *failure* makes `infer` return the textual error payload —
and store that very payload in the cache, because the guard before
`CacheStore.set` is `isinstance(response, str)`, which the error string
satisfies.  The claim's "never stored in the cache" is false. -/
theorem infer_error_payload_cached_counterexample :
    (ModelInferenceService.infer ⟨true, 60, [], 0, 0⟩ 0 "p" none none true
        (.failure "boom")).1 = ("Error generating response: boom", false) ∧
    dictGet ((ModelInferenceService.infer ⟨true, 60, [], 0, 0⟩ 0 "p" none none true
        (.failure "boom")).2).memory_cache (_generate_cache_key "p" none none)
      = some ("Error generating response: boom", 60) := by
  decide

/-- C2 as amended: in the single-shot path with caching enabled, a
cache write occurs after *every* generation that follows a cache miss —
whether the backend succeeded or raised.  A generation failure is
returned to the caller as the textual error payload
`"Error generating response: ..."`, and that same payload is what gets
stored in the cache. -/
theorem infer_caches_generation_result (c : CacheManager) (now : Nat)
    (prompt : String) (max_tokens temperature : Option Int)
    (backend : BackendResult) (hen : c.enabled = true)
    (hmiss : optStrTruthy (c.get now prompt temperature max_tokens).1 = false) :
    (ModelInferenceService.infer c now prompt max_tokens temperature true backend).1
        = (LLMEngine.generate backend, false) ∧
    dictGet ((ModelInferenceService.infer c now prompt max_tokens temperature true
        backend).2).memory_cache (_generate_cache_key prompt temperature max_tokens)
      = some (LLMEngine.generate backend, now + c.ttl) ∧
    ∀ e, LLMEngine.generate (.failure e) = "Error generating response: " ++ e := by
  have hen2 : ((c.get now prompt temperature max_tokens).2).enabled = true := by
    rw [CacheManager.get_enabled]; exact hen
  refine ⟨?_, ?_, fun e => rfl⟩
  · simp [ModelInferenceService.infer, hmiss]
  · simp [ModelInferenceService.infer, hmiss, CacheManager.set, hen2,
      CacheManager.get_ttl, dictGet_dictSet]

/-- Witness for C2: concrete failing generation against an empty
enabled cache. -/
theorem infer_caches_generation_result_witness :
    (ModelInferenceService.infer ⟨true, 60, [], 0, 0⟩ 0 "p" none none true
        (.failure "x")).1 = ("Error generating response: x", false) ∧
    dictGet ((ModelInferenceService.infer ⟨true, 60, [], 0, 0⟩ 0 "p" none none true
        (.failure "x")).2).memory_cache (_generate_cache_key "p" none none)
      = some ("Error generating response: x", 0 + 60) := by
  have h := infer_caches_generation_result ⟨true, 60, [], 0, 0⟩ 0 "p" none none
    (.failure "x") rfl (by decide)
  exact ⟨h.1, h.2.1⟩

/-! ## Claim C10 — an empty cached string is not served as a hit -/

/-- C10: when the cache holds the empty string as the current,
unexpired value for a prompt and its parameters, `infer` with caching
on does not return it as a hit: the Python truthiness test
`if cached_response:` treats `""` like an absent entry, so the backend
is invoked again and the result is returned with `wasCached = false`. -/
theorem infer_ignores_empty_cached_value (c : CacheManager) (now t : Nat)
    (prompt : String) (max_tokens temperature : Option Int)
    (backend : BackendResult) (hen : c.enabled = true)
    (hmem : dictGet c.memory_cache (_generate_cache_key prompt temperature max_tokens)
      = some ("", t))
    (ht : now < t) :
    (ModelInferenceService.infer c now prompt max_tokens temperature true backend).1
      = (LLMEngine.generate backend, false) := by
  have hfil : dictGet (c.memory_cache.filter (fun e => decide (now ≤ e.expiry)))
      (_generate_cache_key prompt temperature max_tokens) = some ("", t) :=
    dictGet_filter_of_get _ _ _ _ _ hmem (by simp only [decide_eq_true_eq]; omega)
  simp [ModelInferenceService.infer, CacheManager.get,
    CacheManager.clean_expired_entries, hen, hfil, ht, optStrTruthy]

/-- Witness for C10: a cache whose only entry is the empty string,
still unexpired at read time; the backend answer is returned live. -/
theorem infer_ignores_empty_cached_value_witness :
    (ModelInferenceService.infer
        ⟨true, 60, [⟨_generate_cache_key "p" none none, "", 10⟩], 0, 0⟩ 0 "p"
        none none true (.success "hi")).1 = ("hi", false) := by
  have h := infer_ignores_empty_cached_value
    ⟨true, 60, [⟨_generate_cache_key "p" none none, "", 10⟩], 0, 0⟩ 0 10 "p"
    none none (.success "hi") rfl (by decide) (by decide)
  exact h

/-! ## Claim C3 — ownership checks of the session store -/

/-- C3 counterexample: a caller who does not own a *nonexistent*
session does not get `OwnershipViolation`: `add_message` raises
`NotFound` and `delete_session` just returns `False`.  The existence
check runs before the ownership check. -/
theorem session_ownership_counterexample :
    SessionService.add_message [] "s1" "u2" "user" "hello" none
      = .error (.notFound "s1") ∧
    SessionService.add_message [] "s1" "u2" "user" "hello" none
      ≠ .error .ownershipViolation ∧
    SessionService.delete_session [] "s1" "u2" = .ok (false, []) := by
  refine ⟨rfl, ?_, rfl⟩
  have h1 : SessionService.add_message [] "s1" "u2" "user" "hello" none
      = .error (.notFound "s1") := rfl
  rw [h1]
  intro h
  injection h with h2
  exact SessionError.noConfusion h2

/-- C3 as amended: a non-owning caller gets `OwnershipViolation` from
`add_message` and `delete_session` exactly when the session *exists*;
when it does not, `add_message` fails with `NotFound` and
`delete_session` reports failure by returning `False`. -/
theorem session_ownership_amended (db : List SessionRow)
    (sid uid role content : String) (tk : Option Nat) :
    (findSession db sid = none →
      SessionService.add_message db sid uid role content tk
        = .error (.notFound sid) ∧
      SessionService.delete_session db sid uid = .ok (false, db)) ∧
    (∀ row, findSession db sid = some row → row.user_id ≠ uid →
      SessionService.add_message db sid uid role content tk
        = .error .ownershipViolation ∧
      SessionService.delete_session db sid uid = .error .ownershipViolation) := by
  constructor
  · intro h
    constructor <;>
      simp [SessionService.add_message, SessionService.delete_session, h]
  · intro row h hne
    constructor <;>
      simp [SessionService.add_message, SessionService.delete_session, h, hne]

/-- Witness for C3: one session owned by `u1`; caller `u2` targets a
missing id (NotFound / false) and the existing one
(OwnershipViolation). -/
theorem session_ownership_amended_witness :
    SessionService.add_message [⟨"s1", "u1", []⟩] "s2" "u2" "user" "hi" none
      = .error (.notFound "s2") ∧
    SessionService.delete_session [⟨"s1", "u1", []⟩] "s2" "u2"
      = .ok (false, [⟨"s1", "u1", []⟩]) ∧
    SessionService.add_message [⟨"s1", "u1", []⟩] "s1" "u2" "user" "hi" none
      = .error .ownershipViolation ∧
    SessionService.delete_session [⟨"s1", "u1", []⟩] "s1" "u2"
      = .error .ownershipViolation := by
  have h1 := (session_ownership_amended [⟨"s1", "u1", []⟩] "s2" "u2" "user" "hi"
    none).1 (by decide)
  have h2 := (session_ownership_amended [⟨"s1", "u1", []⟩] "s1" "u2" "user" "hi"
    none).2 ⟨"s1", "u1", []⟩ (by decide) (by decide)
  exact ⟨h1.1, h1.2, h2.1, h2.2⟩

/-! ## Claim C4 — conversation trimming -/

/-- Reversal preserves the estimated token sum. -/
theorem sumEstimate_reverse (l : List ChatMessage) :
    sumEstimate l.reverse = sumEstimate l := by
  simp [sumEstimate, List.map_reverse, List.sum_reverse]

set_option maxRecDepth 4000 in
/-- C4 counterexample: a one-message history whose single message costs
1027 estimated tokens (513 CJK ideographs in one word) exceeds the
default budget of 1024, yet `trim_conversation` returns the *empty*
list — the most recent message is not included, contradicting the
claim's "always includes the most recent message". -/
theorem trim_conversation_counterexample :
    1024 < sumEstimate [⟨"user", String.mk (List.replicate 513 '一'), none⟩] ∧
    trim_conversation [⟨"user", String.mk (List.replicate 513 '一'), none⟩] = [] := by
  constructor
  · decide
  · decide

/-- C4 as amended: a history within the budget is returned unchanged;
in general the result is a suffix of the history whose estimated token
sum never exceeds the budget at all, and it retains the most recent
message whenever that message's own estimated cost fits the budget (if
the newest message alone overflows the budget, the result is empty and
does not contain it). -/
theorem trim_conversation_amended (messages : List ChatMessage) (b : Nat) :
    (sumEstimate messages ≤ b → trim_conversation messages b = messages) ∧
    (∃ pre, messages = pre ++ trim_conversation messages b) ∧
    sumEstimate (trim_conversation messages b) ≤ b ∧
    (∀ m, messages.getLast? = some m → estimate_tokens (some m.content) ≤ b →
      (trim_conversation messages b).getLast? = some m) := by
  refine ⟨?_, ?_, ?_, ?_⟩
  · intro h
    have h' : 0 + sumEstimate messages.reverse ≤ b := by
      rw [sumEstimate_reverse]; omega
    unfold trim_conversation
    rw [trimRev_of_sum_le b messages.reverse 0 h', List.reverse_reverse]
  · obtain ⟨suf, hsuf⟩ := trimRev_extends b messages.reverse 0
    refine ⟨suf.reverse, ?_⟩
    unfold trim_conversation
    calc messages = messages.reverse.reverse := (List.reverse_reverse _).symm
      _ = (trimRev b 0 messages.reverse ++ suf).reverse := by rw [← hsuf]
      _ = suf.reverse ++ (trimRev b 0 messages.reverse).reverse := by
          rw [List.reverse_append]
  · have h := trimRev_sum_le b messages.reverse 0 (Nat.zero_le b)
    unfold trim_conversation
    rw [sumEstimate_reverse]
    omega
  · intro m hm hle
    have hrev : messages.reverse.head? = some m := by
      rw [List.head?_reverse]; exact hm
    obtain ⟨rest, hrest⟩ : ∃ rest, messages.reverse = m :: rest := by
      cases hr : messages.reverse with
      | nil => rw [hr] at hrev; simp at hrev
      | cons a tl =>
        rw [hr] at hrev
        simp at hrev
        subst hrev
        exact ⟨tl, rfl⟩
    obtain ⟨tl, htl⟩ := trimRev_head b m rest hle
    unfold trim_conversation
    rw [hrest, htl, List.getLast?_reverse]
    rfl

/-- Witness for C4: a one-message history under a budget of 3 is
untouched, and a two-message history over that budget keeps the most
recent message (cost 2 ≤ 3) as its last entry. -/
theorem trim_conversation_amended_witness :
    sumEstimate [⟨"user", "hi", none⟩] ≤ 3 ∧
    trim_conversation [⟨"user", "hi", none⟩] 3 = [⟨"user", "hi", none⟩] ∧
    (trim_conversation [⟨"user", "x y", none⟩, ⟨"assistant", "a b", none⟩]
        3).getLast? = some ⟨"assistant", "a b", none⟩ := by
  refine ⟨by decide,
    (trim_conversation_amended [⟨"user", "hi", none⟩] 3).1 (by decide), ?_⟩
  exact (trim_conversation_amended
    [⟨"user", "x y", none⟩, ⟨"assistant", "a b", none⟩] 3).2.2.2
    ⟨"assistant", "a b", none⟩ (by decide) (by decide)

/-! ## Claim C9 — the token-estimate heuristic -/

/-- The counter `pyWordCount` counts exactly the words `split()` produces. -/
theorem splitWordsAux_length (cs : List Char) :
    ∀ acc : List Char, (splitWordsAux acc cs).length
      = countWordsAux (!acc.isEmpty) cs + (if acc.isEmpty then 0 else 1) := by
  induction cs with
  | nil => intro acc; cases acc <;> simp [splitWordsAux, countWordsAux]
  | cons c rest ih =>
    intro acc
    by_cases hsp : isPySpace c = true
    · cases acc <;> simp [splitWordsAux, countWordsAux, hsp, ih]
    · cases acc <;> simp [splitWordsAux, countWordsAux, hsp, ih] <;> omega

theorem pyWordCount_eq_pySplit_length (s : String) :
    pyWordCount s = (pySplit s).length := by
  simp [pyWordCount, pySplit, splitWordsAux_length]

/-- C9 counterexample: on the two-ideograph text `你好` the code
returns `2 * 2 + 1 = 5` — the CJK characters are double-counted *and*
still form a whitespace-delimited word — while the claim's
"2 × CJK + remaining words" formula gives `2 * 2 + 0 = 4`. -/
theorem estimate_tokens_counterexample :
    estimate_tokens (some "你好") = 5 ∧
    estimate_tokens_specFormula (some "你好") = 4 ∧
    estimate_tokens (some "你好") ≠ estimate_tokens_specFormula (some "你好") := by
  decide

/-- C9 as amended: the token estimate is twice the number of CJK
ideographs plus the number of *all* whitespace-delimited words of the
text (words made of CJK ideographs are counted too); a `None` or empty
input yields 0. -/
theorem estimate_tokens_amended (text : String) :
    estimate_tokens none = 0 ∧ estimate_tokens (some "") = 0 ∧
    estimate_tokens (some text)
      = 2 * (text.toList.filter isCJK).length + (pySplit text).length := by
  refine ⟨rfl, rfl, ?_⟩
  by_cases h : text = ""
  · subst h; decide
  · simp only [estimate_tokens, h, if_false, ← pyWordCount_eq_pySplit_length]
    omega

/-! ## Claim C6 — streaming event order -/

theorem filter_token_map (l : List String) :
    (l.map StreamEvent.token).filter isTokenEvent = l.map StreamEvent.token := by
  induction l with
  | nil => rfl
  | cons a t ih => simp [List.filter_cons, isTokenEvent, ih]

/-- C6: every event sequence the streaming endpoint produces for a
request whose session exists and is owned by the caller — the endpoint
establishes exactly this before starting the generator — is one `start`
event, then zero or more `token` events, then exactly one terminal
`done` or `error` event, in both the completing and the failing
generation runs. -/
theorem stream_event_order (session_id message_id user_id prompt : String)
    (max_tokens temperature : Option Int) (c : CacheManager)
    (db : List SessionRow) (out : StreamOutcome) (row : SessionRow)
    (hfind : findSession db session_id = some row)
    (howner : row.user_id = user_id) :
    ∃ (contents : List String) (term : StreamEvent),
      (generate_stream session_id message_id user_id prompt max_tokens temperature
          c db out).1
        = StreamEvent.start session_id message_id
            :: contents.map StreamEvent.token ++ [term] ∧
      ((∃ n, term = StreamEvent.done n) ∨ (∃ msg, term = StreamEvent.error msg)) := by
  cases out with
  | fails fr e =>
    exact ⟨fr.filter (fun t => !(t = "")),
      .error ("Error generating response: " ++ e), rfl, .inr ⟨_, rfl⟩⟩
  | completes fr =>
    simp only [generate_stream]
    split
    · rename_i err heq
      unfold SessionService.add_message at heq
      rw [hfind] at heq
      simp [howner] at heq
    · rename_i db2 heq
      exact ⟨fr.filter (fun t => !(t = "")),
        .done (pyWordCount (String.join (fr.filter (fun t => !(t = ""))))),
        rfl, .inl ⟨_, rfl⟩⟩

/-- Witness for C6: a live stream of two non-empty fragments (plus one
empty fragment, which is skipped) over an existing owned session. -/
theorem stream_event_order_witness :
    ∃ (contents : List String) (term : StreamEvent),
      (generate_stream "s1" "m1" "u1" "p" none none ⟨true, 60, [], 0, 0⟩
          [⟨"s1", "u1", []⟩] (.completes ["hi", "", "there"])).1
        = StreamEvent.start "s1" "m1"
            :: contents.map StreamEvent.token ++ [term] ∧
      ((∃ n, term = StreamEvent.done n) ∨ (∃ msg, term = StreamEvent.error msg)) :=
  stream_event_order "s1" "m1" "u1" "p" none none ⟨true, 60, [], 0, 0⟩
    [⟨"s1", "u1", []⟩] (.completes ["hi", "", "there"]) ⟨"s1", "u1", []⟩
    (by decide) rfl

/-! ## Claim C1 — the streaming path and the cache -/

/-- C1 counterexample: the cache holds an unexpired value `"CACHED"`
under exactly the key the single-shot path would derive for this prompt
and parameters, yet the streamed turn emits the *live* fragment — no
cached replay — and after successful completion of a live generation
with non-empty accumulated text `"live"`, the cache still holds
`"CACHED"`: nothing was persisted.  The streaming path neither consults
nor writes the cache. -/
theorem stream_no_cache_counterexample :
    (generate_stream "s1" "m1" "u1" "p" none none
        ⟨true, 60, [⟨_generate_cache_key "p" none none, "CACHED", 1000⟩], 0, 0⟩
        [⟨"s1", "u1", []⟩] (.completes ["live"])).1
      = [StreamEvent.start "s1" "m1", StreamEvent.token "live",
          StreamEvent.done 1] ∧
    dictGet ((generate_stream "s1" "m1" "u1" "p" none none
        ⟨true, 60, [⟨_generate_cache_key "p" none none, "CACHED", 1000⟩], 0, 0⟩
        [⟨"s1", "u1", []⟩] (.completes ["live"])).2.1).memory_cache
        (_generate_cache_key "p" none none) = some ("CACHED", 1000) ∧
    ("CACHED" : String) ≠ "live" := by
  decide

/-- C1 as amended: the streaming chat path performs no cache operation
at all — the cache state is returned exactly as it was, whatever the
outcome, and the `token` events are exactly the backend's non-empty
live fragments, independent of any cached value. -/
theorem stream_path_never_uses_cache (session_id message_id user_id prompt : String)
    (max_tokens temperature : Option Int) (c : CacheManager)
    (db : List SessionRow) (out : StreamOutcome) :
    (generate_stream session_id message_id user_id prompt max_tokens temperature
        c db out).2.1 = c ∧
    (generate_stream session_id message_id user_id prompt max_tokens temperature
        c db out).1.filter isTokenEvent
      = (out.fragments.filter (fun t => !(t = ""))).map StreamEvent.token := by
  cases out with
  | fails fr e =>
    refine ⟨rfl, ?_⟩
    simp [generate_stream, StreamOutcome.fragments, List.filter_cons,
      List.filter_append, isTokenEvent, filter_token_map]
  | completes fr =>
    constructor
    · simp only [generate_stream]
      split <;> rfl
    · simp only [generate_stream]
      split <;>
        simp [StreamOutcome.fragments, List.filter_cons, List.filter_append,
          isTokenEvent, filter_token_map]

end PocketLLM
